import Mathlib

/-!
# Verification of the blight-notify daemon (src/main.rs)

A shallow embedding of the event-coalescing pipeline of the blight-notify
daemon, together with proofs of the specification's claims about it.

Modelling conventions:

* Brightness values are `f64` in the source.  Where a claim's truth is
  insensitive to binary64 rounding (the coalescer's selection, provenance
  and bounds claims), they are embedded as exact rationals (`ℚ`); the
  brightness files hold plain integer text, so parsed values are exact.
  The notifier's percentage computation `(fval * 100.) as u8` IS sensitive
  to rounding (the product is rounded to binary64 before the cast), so it
  is modelled with an explicit IEEE-754 round-to-nearest-even function
  `fl64`.  In ℚ, division by zero yields `0` (no claim proved here depends
  on the division-by-zero case: all bounds claims carry a `0 < max`
  hypothesis).
* Filesystem paths are lists of components (`List String`); the filesystem
  itself is a function `Path → Option String` giving each file's content
  (`none` = unreadable).
* Channel interactions of one coalescer cycle are represented by the values
  the reads return: the blocking `recv` result, the first non-blocking
  `try_recv` result (`Option ℚ`), and an oracle `f : ℕ → Option ℚ` giving
  the result of the `try_recv` performed in drain iteration `i`.
  Real-time aspects (the 150 ms sleeps, the poll interval) have no
  behavioural content at this level and are not modelled.
* A Rust `panic!` (failed `unwrap`) is represented as an explicit outcome
  constructor, never as a value.
-/

namespace Blight

/-- A filesystem path, as its list of components. -/
abbrev Path := List String

/-- A filesystem: maps a path to its readable content, `none` if reading
fails.  `std::fs::read_to_string` in the source. -/
abbrev Fs := Path → Option String

/-- Modelled from the Rust standard library: `PathBuf::set_file_name`,
which replaces the final path component.  Every path it is applied to in
this program ends in the file name `"brightness"`, so the replace branch is
the one exercised. -/
def set_file_name (p : Path) (name : String) : Path :=
  p.dropLast ++ [name]

/-- Modelled from the Rust standard library: `str::trim`, which removes
leading and trailing whitespace (represented here on the character list of
the string). -/
def trimContent (cs : List Char) : List Char :=
  ((cs.dropWhile Char.isWhitespace).reverse.dropWhile Char.isWhitespace).reverse

/-- Digits of a decimal numeral to a natural number; `none` if any
character is not a digit or the list is empty. -/
def digitsToNat (cs : List Char) : Option ℕ :=
  match cs with
  | [] => none
  | _ => cs.foldlM (fun acc c => if c.isDigit then some (acc * 10 + (c.toNat - 48)) else none) 0

/-- Modelled from the Rust standard library: `str::parse::<f64>`, restricted
to optionally signed decimal integer text — the format of sysfs
`brightness` / `max_brightness` files (spec §6: "integer text").  Parsed
values are exact, so the result is an exact rational. -/
def parseNum (cs : List Char) : Option ℚ :=
  match cs with
  | '-' :: tl => (digitsToNat tl).map (fun n => -(n : ℚ))
  | '+' :: tl => (digitsToNat tl).map (fun n => (n : ℚ))
  | tl => (digitsToNat tl).map (fun n => (n : ℚ))

/-- The `read_val` closure of `handler` (src/main.rs:143-149):
`read_to_string(path).unwrap().trim().parse().unwrap()`.  `none` represents
a panic of either `unwrap` (unreadable file, or unparsable content). -/
def read_val (fs : Fs) (p : Path) : Option ℚ :=
  (fs p).bind fun s => parseNum (trimContent s.toList)

/-- The brightness-reading portion of `handler` (src/main.rs:153-156):
read the brightness file at `p`, then the sibling `max_brightness` file,
and form the quotient. -/
def brightnessFraction (fs : Fs) (p : Path) : Option ℚ :=
  (read_val fs p).bind fun b =>
    (read_val fs (set_file_name p "max_brightness")).map fun mx => b / mx

/-- A change event, as delivered by the `notify` crate: carries the list of
paths it reports (`notify::Event::paths`). -/
structure Event where
  paths : List Path
deriving DecidableEq

/-- The observable outcome of one `handler` invocation (src/main.rs:142-159).
The handler owns one channel `Sender`; `sent q` means exactly one value,
`q`, was sent on the fraction channel; every other outcome sends nothing. -/
inductive HandlerOutcome where
  /-- The event argument was an `Err`: the `if let Ok` body is skipped. -/
  | skipped : HandlerOutcome
  /-- `event.paths.pop().unwrap()` panicked: the event carried no paths. -/
  | panickedNoPath : HandlerOutcome
  /-- An `unwrap` inside `read_val` panicked: a file was unreadable or its
  content unparsable. -/
  | panickedRead : HandlerOutcome
  /-- `s.send(perc)` ran: exactly one fraction was sent on the channel. -/
  | sent (q : ℚ) : HandlerOutcome
deriving DecidableEq

/-- `handler` (src/main.rs:142-159): on an `Ok` event, pop the last reported
path, read its brightness and its sibling `max_brightness`, and send the
quotient on the channel. -/
def handler (fs : Fs) (ev : Except Unit Event) : HandlerOutcome :=
  match ev with
  | .error _ => .skipped
  | .ok event =>
    match event.paths.getLast? with
    | none => .panickedNoPath
    | some p =>
      match brightnessFraction fs p with
      | none => .panickedRead
      | some q => .sent q

/-! ## The Event Coalescer (src/main.rs:60-79)

One cycle of the consumer loop: a blocking `recv` yields `v`; a
non-blocking `try_recv` yields `second`; if `second` carried a value the
drain phase runs: ten iterations, each sleeping 150 ms and then performing
one `try_recv`.  The oracle `f i` is the value that the `try_recv` of drain
iteration `i` returns (`none` = channel empty at that moment). -/

/-- State of the drain phase, instrumented with the list of reads it has
performed: `attempts` records, in order, the result of every `try_recv`
the phase has executed; `last` is the value of the last successful one
(the `Iterator::last` of the `filter_map` in src/main.rs:63-68). -/
structure DrainState where
  attempts : List (Option ℚ)
  last : Option ℚ
deriving DecidableEq

/-- One drain iteration (src/main.rs:64-67): sleep 150 ms, then `try_recv`
once; a successful read replaces the recorded last value. -/
def drainStep (f : ℕ → Option ℚ) (i : ℕ) (st : DrainState) : DrainState :=
  { attempts := st.attempts ++ [f i]
    last := match f i with
            | some y => some y
            | none => st.last }

/-- The drain phase after `n` of its iterations (the source runs all 10:
`(0..10).filter_map(..).last()`, src/main.rs:63-68). -/
def drainRun (f : ℕ → Option ℚ) : ℕ → DrainState
  | 0 => ⟨[], none⟩
  | n + 1 => drainStep f n (drainRun f n)

/-- One full coalescer cycle (src/main.rs:61-74): `v` is the blocking
`recv` result, `second` the first `try_recv` result, `f` the drain-phase
read oracle.  Returns `fval`, the settled value passed to the notifier.
Mirrors `let spam = if let Ok(x) .. { s.or(Some(x)) } else { None };
let fval = spam.unwrap_or(v);`. -/
def coalesceCycle (v : ℚ) (second : Option ℚ) (f : ℕ → Option ℚ) : ℚ :=
  let spam : Option ℚ :=
    match second with
    | some x => ((drainRun f 10).last).or (some x)
    | none => none
  spam.getD v

/-- The value `q` is one of the values the coalescer read from the channel
during a cycle with blocking-read result `v`, second read `second`, and
drain oracle `f`. -/
def observedValue (v : ℚ) (second : Option ℚ) (f : ℕ → Option ℚ) (q : ℚ) : Prop :=
  q = v ∨ second = some q ∨ ∃ i, i < 10 ∧ f i = some q

/-! ## The Notifier formatting (src/main.rs:75)

The percentage displayed by the notification is computed in `f64`:
`(fval * 100.) as u8`, where `fval` is itself an `f64`.  Exact rational
arithmetic is not faithful here — the product `fval * 100.` is rounded to
binary64, and that rounding is observable (the double nearest `29/100`,
multiplied by `100.`, rounds to `28.999999999999996`, which the cast
truncates to `28`, not `29`).  So the multiplication of the notifier is
modelled with an explicit binary64 round-to-nearest-even function
`fl64`. -/

/-- Round a rational to the nearest integer, ties to even (the IEEE-754
default rounding's integer core). -/
def roundEven (x : ℚ) : ℤ :=
  if x - ⌊x⌋ < 1 / 2 then ⌊x⌋
  else if 1 / 2 < x - ⌊x⌋ then ⌊x⌋ + 1
  else if ⌊x⌋ % 2 = 0 then ⌊x⌋ else ⌊x⌋ + 1

/-- Modelled from IEEE-754 binary64 (the semantics of Rust `f64`
arithmetic): the exponent of the unit in the last place at magnitude `|q|`
— `Int.log 2 |q| - 52` in the normal range, `-1074` in the subnormal
range. -/
def ulpExp (q : ℚ) : ℤ :=
  max (Int.log 2 |q| - 52) (-1074)

/-- Modelled from IEEE-754 binary64: round a real (here rational) value to
the nearest double, ties to even — round to the nearest multiple of the
unit in the last place.  Overflow to infinity (above `2^1024`) is outside
every use in this development and is not modelled. -/
def fl64 (q : ℚ) : ℚ :=
  roundEven (q / 2 ^ ulpExp q) * 2 ^ ulpExp q

/-- Modelled from the Rust standard library: the `as u8` cast applied to an
`f64`, i.e. truncation toward zero saturating at 0 and 255; on a
nonnegative rational this is `⌊q⌋`. -/
def f64_to_u8 (q : ℚ) : ℕ :=
  if q < 0 then 0 else min ⌊q⌋.toNat 255

/-- The notification body (src/main.rs:75):
`format!("{} {}%", conf.message, (fval * 100.) as u8)`.  The argument
`fval` is the `f64` the coalescer settled on; the product `fval * 100.`
is computed in `f64`, hence the `fl64` rounding before the cast. -/
def notifyBody (msg : String) (fval : ℚ) : String :=
  msg ++ " " ++ toString (f64_to_u8 (fl64 (fval * 100))) ++ "%"

/-! ## Device enumeration and watch arming (src/main.rs:112-128) -/

/-- Outcome of the `watch` function.  `panicked` models the `unwrap` on
`read_dir` failing — a panic that aborts the process (non-zero exit)
before any watch is armed; `failed armed` models `watcher.watch(..)?`
propagating an error after the paths in `armed` were armed; `ok armed`
is full success. -/
inductive WatchOutcome where
  | panicked : WatchOutcome
  | failed (armed : List Path) : WatchOutcome
  | ok (armed : List Path) : WatchOutcome
deriving DecidableEq

/-- The paths whose watches were armed by the time `watch` finished. -/
def armedWatches : WatchOutcome → List Path
  | .panicked => []
  | .failed armed => armed
  | .ok armed => armed

/-- The `for p in bl_paths` loop of `watch` (src/main.rs:123-126):
arm a watch on each path in turn, `?`-propagating the first failure. -/
def armAll (tryWatch : Path → Except Unit Unit) (armed : List Path) :
    List Path → WatchOutcome
  | [] => .ok armed
  | p :: ps =>
    match tryWatch p with
    | .error _ => .failed armed
    | .ok _ => armAll tryWatch (armed ++ [p]) ps

/-- `watch` (src/main.rs:112-128): `read_dir("/sys/class/backlight")` is
modelled by `readDir` (`none` = the directory cannot be read, on which the
source calls `.unwrap()`); each readable entry's path gets `"brightness"`
pushed (`filter_map(|r| r.ok())` drops unreadable entries), and a watch is
armed on each resulting path. -/
def watch (readDir : Option (List (Except Unit Path)))
    (tryWatch : Path → Except Unit Unit) : WatchOutcome :=
  match readDir with
  | none => .panicked
  | some entries =>
    let bl_paths := (entries.filterMap Except.toOption).map (fun e => e ++ ["brightness"])
    armAll tryWatch [] bl_paths

/-! ## The main loop (src/main.rs:60-79) -/

/-- The channel interactions of one main-loop iteration: the blocking
`recv` result (`Err` models `RecvError`, i.e. all senders dropped), the
first `try_recv` result, and the drain-phase oracle. -/
structure CycleInput where
  recv : Except Unit ℚ
  second : Option ℚ
  drain : ℕ → Option ℚ

/-- One main-loop iteration (src/main.rs:60-78): `let v = r.recv()?;` on
failure `?` returns the error from `main` (non-zero process exit);
otherwise the cycle settles a value and formats the notification body. -/
def mainCycle (msg : String) (c : CycleInput) : Except Unit String :=
  match c.recv with
  | .error e => .error e
  | .ok v => .ok (notifyBody msg (coalesceCycle v c.second c.drain))

/-- The main loop run over a finite schedule of cycle inputs: returns the
notification bodies produced, and `some e` if the loop terminated by a
failing `recv` (in which case no later cycle runs — `main` returns the
error). -/
def runLoop (msg : String) : List CycleInput → List String × Option Unit
  | [] => ([], none)
  | c :: cs =>
    match mainCycle msg c with
    | .error e => ([], some e)
    | .ok m =>
      let rest := runLoop msg cs
      (m :: rest.1, rest.2)

/-- A value `q` was sent on the channel by a handler invocation whose
brightness and `max_brightness` files were readable and parsed to a
well-formed pair: `0 ≤ cur ≤ mx` and `0 < mx`. -/
def wellFormedSend (q : ℚ) : Prop :=
  ∃ fs : Fs, ∃ p : Path, ∃ cur mx : ℚ,
    read_val fs p = some cur ∧
    read_val fs (set_file_name p "max_brightness") = some mx ∧
    0 ≤ cur ∧ cur ≤ mx ∧ 0 < mx ∧
    handler fs (.ok ⟨[p]⟩) = .sent q

/-! ## Test fixtures (concrete inputs used by witnesses and counterexamples) -/

/-- Test fixture: a device brightness path. -/
def devPath : Path := ["d", "brightness"]

/-- Test fixture: filesystem where `brightness` reads 1 and `max_brightness` 2. -/
def fsHalf : Fs := fun p =>
  if p = ["d", "brightness"] then some "1"
  else if p = ["d", "max_brightness"] then some "2" else none

/-- Test fixture: filesystem where `brightness` and `max_brightness` both read 1. -/
def fsOne : Fs := fun p =>
  if p = ["d", "brightness"] then some "1"
  else if p = ["d", "max_brightness"] then some "1" else none

/-- Test fixture: filesystem where `brightness` reads 2 but `max_brightness` 1
(a device reporting current above maximum). -/
def fsOver : Fs := fun p =>
  if p = ["d", "brightness"] then some "2"
  else if p = ["d", "max_brightness"] then some "1" else none

/-- Test fixture: filesystem on which every read fails. -/
def fsEmpty : Fs := fun _ => none

/-- Test fixture: a sysfs-like brightness path. -/
def sysPath : Path := ["sys", "class", "backlight", "amdgpu_bl0", "brightness"]

/-- Test fixture: filesystem with whitespace-padded contents `" 128\n"` and
`"255\n"` under `sysPath`'s directory. -/
def fsSys : Fs := fun p =>
  if p = sysPath then some " 128\n"
  else if p = ["sys", "class", "backlight", "amdgpu_bl0", "max_brightness"] then some "255\n"
  else none

/-- Test fixture: a drain oracle succeeding at iterations 2 and 5 only. -/
def drainTwo : ℕ → Option ℚ := fun i =>
  if i = 2 then some 3 else if i = 5 then some 4 else none

/-! ## Helper lemmas -/

/-- The drain phase attempts one read per iteration: after `n` iterations
the attempted reads are exactly `f 0, …, f (n-1)`. -/
theorem drainRun_attempts (f : ℕ → Option ℚ) (n : ℕ) :
    (drainRun f n).attempts = (List.range n).map f := by
  induction n with
  | zero => rfl
  | succ n ih => simp [drainRun, drainStep, List.range_succ, ih]

/-- The drain phase's recorded value is the last successful read. -/
theorem drainRun_last (f : ℕ → Option ℚ) (n : ℕ) :
    (drainRun f n).last = ((List.range n).filterMap f).getLast? := by
  induction n with
  | zero => rfl
  | succ n ih =>
    rw [drainRun, drainStep]
    cases h : f n with
    | none => simpa [List.range_succ, List.filterMap_append, h] using ih
    | some y => simp [List.range_succ, List.filterMap_append, h]

/-- The settled value of a cycle is one of the values read during it. -/
theorem coalesceCycle_observed (v : ℚ) (second : Option ℚ) (f : ℕ → Option ℚ) :
    observedValue v second f (coalesceCycle v second f) := by
  unfold observedValue coalesceCycle
  cases second with
  | none => simp
  | some x =>
    cases h : (drainRun f 10).last with
    | none => simp [h, Option.or]
    | some l =>
      right; right
      have hl : ((List.range 10).filterMap f).getLast? = some l :=
        (drainRun_last f 10).symm.trans h
      have hmem : l ∈ (List.range 10).filterMap f := by
        obtain ⟨hne, heq⟩ := List.mem_getLast?_eq_getLast (Option.mem_def.mpr hl)
        exact heq ▸ List.getLast_mem hne
      obtain ⟨i, hir, hfi⟩ := List.mem_filterMap.mp hmem
      exact ⟨i, List.mem_range.mp hir, by simpa [h, Option.or] using hfi⟩

/-- A value sent by a well-formed handler invocation lies in `[0, 1]`. -/
theorem wellFormedSend_in_unit {q : ℚ} (h : wellFormedSend q) : 0 ≤ q ∧ q ≤ 1 := by
  obtain ⟨fs, p, cur, mx, h1, h2, hc0, hcm, hm0, hsend⟩ := h
  have hh : handler fs (.ok ⟨[p]⟩) = .sent (cur / mx) := by
    simp [handler, brightnessFraction, h1, h2]
  rw [hh] at hsend
  have hq : cur / mx = q := by simpa using hsend
  subst hq
  exact ⟨div_nonneg hc0 hm0.le, (div_le_one hm0).mpr hcm⟩

/-- Rounding to the nearest integer never goes below a nonnegative input's
floor. -/
theorem roundEven_nonneg (x : ℚ) (h : 0 ≤ x) : 0 ≤ roundEven x := by
  have h0 : 0 ≤ ⌊x⌋ := Int.floor_nonneg.mpr h
  unfold roundEven
  split_ifs <;> omega

/-- Rounding to the nearest integer never overshoots an integer upper
bound. -/
theorem roundEven_le_int (x : ℚ) (n : ℤ) (h : x ≤ n) : roundEven x ≤ n := by
  have hn : ⌊x⌋ ≤ n := by
    have := Int.floor_le_floor h
    rwa [Int.floor_intCast] at this
  have key : x - ⌊x⌋ ≠ 0 → ⌊x⌋ + 1 ≤ n := by
    intro hne
    have hlt : x < (n : ℚ) := by
      rcases lt_or_eq_of_le h with h' | h'
      · exact h'
      · exact absurd (by rw [h', Int.floor_intCast]; ring) hne
    have := Int.floor_lt.mpr hlt
    omega
  unfold roundEven
  split_ifs with hc1 hc2 hc3
  · exact hn
  · exact key (by linarith)
  · exact hn
  · exact key (by linarith)

/-- `fl64` preserves nonnegativity. -/
theorem fl64_nonneg (x : ℚ) (h : 0 ≤ x) : 0 ≤ fl64 x := by
  unfold fl64
  have h2 : (0 : ℚ) < 2 ^ ulpExp x := zpow_pos (by norm_num) _
  have h3 : (0 : ℤ) ≤ roundEven (x / 2 ^ ulpExp x) :=
    roundEven_nonneg _ (div_nonneg h h2.le)
  exact mul_nonneg (by exact_mod_cast h3) h2.le

/-- Rounding to binary64 never overshoots an integer upper bound, as long
as the rounding grid is at least integer-fine (`ulpExp ≤ 0`). -/
theorem fl64_le_int (x : ℚ) (B : ℤ) (hB : x ≤ (B : ℚ)) (hu : ulpExp x ≤ 0) :
    fl64 x ≤ (B : ℚ) := by
  unfold fl64
  have h2 : (0 : ℚ) < 2 ^ ulpExp x := zpow_pos (by norm_num) _
  have hprod : ((B * 2 ^ (-ulpExp x).toNat : ℤ) : ℚ) * 2 ^ ulpExp x = B := by
    push_cast
    rw [← zpow_natCast (2 : ℚ) (-ulpExp x).toNat, Int.toNat_of_nonneg (by omega),
      mul_assoc, ← zpow_add₀ (by norm_num : (2 : ℚ) ≠ 0)]
    simp
  have harg : x / 2 ^ ulpExp x ≤ ((B * 2 ^ (-ulpExp x).toNat : ℤ) : ℚ) := by
    rw [div_le_iff₀ h2, hprod]
    exact hB
  calc (roundEven (x / 2 ^ ulpExp x) : ℚ) * 2 ^ ulpExp x
      ≤ ((B * 2 ^ (-ulpExp x).toNat : ℤ) : ℚ) * 2 ^ ulpExp x := by
        have := roundEven_le_int _ _ harg
        exact mul_le_mul_of_nonneg_right (by exact_mod_cast this) h2.le
    _ = B := hprod

/-- Up to magnitude 100 (all values the notifier computes with), the
binary64 rounding grid is at least integer-fine. -/
theorem ulpExp_nonpos (x : ℚ) (h : |x| ≤ 100) : ulpExp x ≤ 0 := by
  unfold ulpExp
  rcases eq_or_lt_of_le (abs_nonneg x) with h0 | h0
  · rw [← h0, Int.log_zero_right]
    norm_num
  · have hlog : Int.log 2 |x| < 7 := by
      refine (Int.lt_zpow_iff_log_lt (by norm_num) h0).mp ?_
      calc |x| ≤ 100 := h
      _ < ((2 : ℕ) : ℚ) ^ (7 : ℤ) := by norm_num
    omega

/-- Evaluation rule for `fl64` on a value whose binade is known: if
`2 ^ e ≤ |q| < 2 ^ (e + 1)` with `e` in the normal range, `fl64 q` rounds
`q` to the grid of step `2 ^ (e - 52)`. -/
theorem fl64_eq_of_bounds (q : ℚ) (e m : ℤ) (he3 : -1022 ≤ e)
    (he1 : ((2 : ℕ) : ℚ) ^ e ≤ |q|) (he2 : |q| < ((2 : ℕ) : ℚ) ^ (e + 1))
    (hm : roundEven (q / 2 ^ (e - 52)) = m) :
    fl64 q = m * 2 ^ (e - 52) := by
  have hq : 0 < |q| := lt_of_lt_of_le (zpow_pos (by norm_num) e) he1
  have h1 : e ≤ Int.log 2 |q| := (Int.zpow_le_iff_le_log (by norm_num) hq).mp he1
  have h2 : Int.log 2 |q| < e + 1 := (Int.lt_zpow_iff_log_lt (by norm_num) hq).mp he2
  have hu : ulpExp q = e - 52 := by
    unfold ulpExp
    omega
  rw [fl64, hu, hm]

/-! ## Claim theorems -/

/-- C1: the coalescer's settled-value selection follows the specified
algorithm.  For a cycle whose blocking receive returned `v`: if the
non-blocking read of a second value fails, the settled value is `v`; if a
second value `x` was read and at least one drain-phase read succeeded, the
settled value is the last value read in the drain phase; otherwise it is
`x`. -/
theorem coalescer_settled_selection (v x : ℚ) (f : ℕ → Option ℚ) :
    coalesceCycle v none f = v ∧
    (∀ l, ((List.range 10).filterMap f).getLast? = some l →
      coalesceCycle v (some x) f = l) ∧
    (((List.range 10).filterMap f).getLast? = none →
      coalesceCycle v (some x) f = x) := by
  refine ⟨rfl, ?_, ?_⟩
  · intro l hl
    have h : (drainRun f 10).last = some l := (drainRun_last f 10).trans hl
    simp [coalesceCycle, h, Option.or]
  · intro hl
    have h : (drainRun f 10).last = none := (drainRun_last f 10).trans hl
    simp [coalesceCycle, h, Option.or]

/-- C1 witness: with `v = 1`, second value `2`, and drain reads succeeding
at iterations 2 and 5 with values 3 and 4, the three cases of the selection
theorem instantiate to concrete settled values. -/
theorem coalescer_settled_selection_witness :
    coalesceCycle 1 none drainTwo = 1 ∧
    coalesceCycle 1 (some 2) drainTwo = 4 ∧
    coalesceCycle 1 (some 2) (fun _ => none) = 2 :=
  ⟨(coalescer_settled_selection 1 2 drainTwo).1,
   (coalescer_settled_selection 1 2 drainTwo).2.1 4 (by decide),
   (coalescer_settled_selection 1 2 (fun _ => none)).2.2 (by decide)⟩

/-- C2: once entered, the drain phase performs all 10 iterations — one
`try_recv` per iteration, i.e. exactly the reads `f 0, …, f 9` — no matter
how many succeed or fail, and its result is the last successful one; it
never breaks out early on an empty read.  (The 150 ms sleep preceding each
read has no behavioural content here and is not modelled.) -/
theorem drain_performs_all_ten_reads (f : ℕ → Option ℚ) :
    (drainRun f 10).attempts = (List.range 10).map f ∧
    (drainRun f 10).attempts.length = 10 ∧
    (drainRun f 10).last = ((List.range 10).filterMap f).getLast? := by
  refine ⟨drainRun_attempts f 10, ?_, drainRun_last f 10⟩
  rw [drainRun_attempts f 10]
  simp

/-- C3 counterexample: the claim "every settled value lies in [0, 1] for
all file contents that parse as numbers" is false: with `brightness`
reading `"2"` and `max_brightness` reading `"1"` (both parse as numbers),
the handler sends `2`, and a cycle that receives only that value settles
on `2 > 1`. -/
theorem settled_value_unit_interval_cex :
    handler fsOver (.ok ⟨[devPath]⟩) = .sent 2 ∧
    coalesceCycle 2 none (fun _ => none) = 2 ∧ ¬((2 : ℚ) ≤ 1) := by
  refine ⟨?_, rfl, by norm_num⟩
  have h1 : read_val fsOver devPath = some 2 := by decide
  have h2 : read_val fsOver (set_file_name devPath "max_brightness") = some 1 := by decide
  simp [handler, brightnessFraction, h1, h2]

/-- C3 (amended): every settled value lies in [0, 1] provided each value
available on the channel during the cycle was produced by a handler
invocation whose files parsed to `cur` and `mx` with `0 ≤ cur ≤ mx` and
`0 < mx` (well-formed device data; the code performs no clamping, so the
restriction is necessary). -/
theorem settled_value_unit_interval (v : ℚ) (second : Option ℚ) (f : ℕ → Option ℚ)
    (h : ∀ q, observedValue v second f q → wellFormedSend q) :
    0 ≤ coalesceCycle v second f ∧ coalesceCycle v second f ≤ 1 :=
  wellFormedSend_in_unit (h _ (coalesceCycle_observed v second f))

/-- C3 witness: a cycle that receives only the value 1, produced by a
handler reading `"1"` and `"1"`, settles inside [0, 1]. -/
theorem settled_value_unit_interval_witness :
    0 ≤ coalesceCycle 1 none (fun _ => none) ∧
    coalesceCycle 1 none (fun _ => none) ≤ 1 := by
  apply settled_value_unit_interval
  intro q hq
  have hq1 : q = 1 := by
    rcases hq with h | h | ⟨i, _, h⟩
    · exact h
    · cases h
    · cases h
  subst hq1
  have h1 : read_val fsOne devPath = some 1 := by decide
  have h2 : read_val fsOne (set_file_name devPath "max_brightness") = some 1 := by decide
  refine ⟨fsOne, devPath, 1, 1, h1, h2, le_refl 0 |>.trans zero_le_one, le_refl 1, one_pos, ?_⟩
  simp [handler, brightnessFraction, h1, h2]

/-- C4: the settled value of every cycle is a value that was actually
received from the channel during that cycle — the blocking-read value `v`,
the second value, or one of the drain-phase reads; the coalescer never
synthesizes a value. -/
theorem settled_value_from_channel (v : ℚ) (second : Option ℚ) (f : ℕ → Option ℚ) :
    coalesceCycle v second f = v ∨
    second = some (coalesceCycle v second f) ∨
    ∃ i, i < 10 ∧ f i = some (coalesceCycle v second f) :=
  coalesceCycle_observed v second f

/-- C5 counterexample: two concrete inputs refute the claim as stated.
(a) `current = -1`, `maximum = 1` satisfies the claim's hypotheses
(`maximum > 0`, `current ≤ maximum`, and `"-1"` parses as a number), but
the body shows `0%` while `⌊fraction × 100⌋ = -100`, not an integer in
`[0, 100]` and not the displayed percentage.  (b) `current = 29`,
`maximum = 100`: the `f64` quotient rounds to just below `29/100`, the
`f64` product `fval * 100.` rounds to `28.999999999999996…`
(`8162774324609023 / 2^48`), and the cast truncates — the body shows
`28%` while `⌊fraction × 100⌋ = 29`: the displayed percentage is not
`⌊fraction × 100⌋`. -/
theorem notification_body_percentage_cex :
    (notifyBody "Brightness adjusted:" (fl64 ((-1 : ℚ) / 1)) = "Brightness adjusted: 0%" ∧
      ⌊((-1 : ℚ) / 1) * 100⌋ = -100) ∧
    (notifyBody "Brightness adjusted:" (fl64 ((29 : ℚ) / 100)) = "Brightness adjusted: 28%" ∧
      ⌊((29 : ℚ) / 100) * 100⌋ = 29) := by
  constructor
  · constructor
    · have hq : fl64 ((-1 : ℚ) / 1) = -1 := by
        have h := fl64_eq_of_bounds ((-1 : ℚ) / 1) 0 (-4503599627370496)
          (by norm_num) (by norm_num) (by norm_num) ?_
        · rw [h]; norm_num
        · rw [show ((-1 : ℚ) / 1) / 2 ^ ((0 : ℤ) - 52) = -4503599627370496 by norm_num]
          unfold roundEven
          norm_num
      have hp : fl64 ((-1 : ℚ) * 100) = -100 := by
        have h := fl64_eq_of_bounds ((-1 : ℚ) * 100) 6 (-7036874417766400)
          (by norm_num) (by norm_num) (by norm_num) ?_
        · rw [h]; norm_num
        · rw [show ((-1 : ℚ) * 100) / 2 ^ ((6 : ℤ) - 52) = -7036874417766400 by norm_num]
          unfold roundEven
          norm_num
      rw [notifyBody, hq, hp]
      rfl
    · norm_num
  · constructor
    · have hq : fl64 ((29 : ℚ) / 100) = 5224175567749775 / 4503599627370496 / 4 := by
        have habs : |(29 : ℚ) / 100| = 29 / 100 := abs_of_pos (by norm_num)
        have h := fl64_eq_of_bounds ((29 : ℚ) / 100) (-2) 5224175567749775
          (by norm_num) (by rw [habs]; norm_num) (by rw [habs]; norm_num) ?_
        · rw [h]; norm_num
        · rw [show ((29 : ℚ) / 100) / 2 ^ ((-2 : ℤ) - 52) = 130604389193744384 / 25 by norm_num]
          unfold roundEven
          norm_num
      have hp : fl64 (5224175567749775 / 4503599627370496 / 4 * 100) =
          8162774324609023 * 2 ^ ((4 : ℤ) - 52) := by
        have habs : |(5224175567749775 : ℚ) / 4503599627370496 / 4 * 100| =
            5224175567749775 / 4503599627370496 / 4 * 100 := abs_of_pos (by norm_num)
        apply fl64_eq_of_bounds _ 4 8162774324609023 (by norm_num)
          (by rw [habs]; norm_num) (by rw [habs]; norm_num)
        rw [show ((5224175567749775 : ℚ) / 4503599627370496 / 4 * 100) / 2 ^ ((4 : ℤ) - 52) =
          130604389193744375 / 16 by norm_num]
        unfold roundEven
        norm_num
      have hcast : f64_to_u8 (8162774324609023 * 2 ^ ((4 : ℤ) - 52)) = 28 := by
        unfold f64_to_u8
        rw [if_neg (by norm_num), show ⌊(8162774324609023 : ℚ) * 2 ^ ((4 : ℤ) - 52)⌋ = 28 by
          norm_num]
        rfl
      rw [notifyBody, hq, hp, hcast]
      rfl
    · norm_num

/-- C5 (amended): for all `current`/`maximum` with `maximum > 0` and
`0 ≤ current ≤ maximum`, the notification body is the message followed by
a space, the percentage and `%`, where the percentage is the floor of the
`f64`-computed value `fl64 (fl64 (current / maximum) * 100)`, an integer
in `[0, 100]`.  (The counterexample forces both changes: the lower bound
`0 ≤ current`, and the double rounding in place of the exact
`⌊fraction × 100⌋` — at `29/100` the two differ.) -/
theorem notification_body_percentage (msg : String) (cur mx : ℚ)
    (h0 : 0 ≤ cur) (h1 : cur ≤ mx) (h2 : 0 < mx) :
    notifyBody msg (fl64 (cur / mx)) =
      msg ++ " " ++ toString (⌊fl64 (fl64 (cur / mx) * 100)⌋.toNat) ++ "%" ∧
    0 ≤ ⌊fl64 (fl64 (cur / mx) * 100)⌋ ∧ ⌊fl64 (fl64 (cur / mx) * 100)⌋ ≤ 100 := by
  have hf0 : 0 ≤ cur / mx := div_nonneg h0 h2.le
  have hf1 : cur / mx ≤ 1 := (div_le_one h2).mpr h1
  have hd0 : 0 ≤ fl64 (cur / mx) := fl64_nonneg _ hf0
  have hd1 : fl64 (cur / mx) ≤ 1 := by
    have h := fl64_le_int (cur / mx) 1 (by exact_mod_cast hf1)
      (ulpExp_nonpos _ (by rw [abs_of_nonneg hf0]; linarith))
    exact_mod_cast h
  have hx0 : 0 ≤ fl64 (cur / mx) * 100 := by positivity
  have hx1 : fl64 (cur / mx) * 100 ≤ 100 := by nlinarith
  have hy0 : 0 ≤ fl64 (fl64 (cur / mx) * 100) := fl64_nonneg _ hx0
  have hy1 : fl64 (fl64 (cur / mx) * 100) ≤ 100 := by
    have h := fl64_le_int (fl64 (cur / mx) * 100) 100 (by exact_mod_cast hx1)
      (ulpExp_nonpos _ (by rw [abs_of_nonneg hx0]; exact hx1))
    exact_mod_cast h
  have hfl0 : 0 ≤ ⌊fl64 (fl64 (cur / mx) * 100)⌋ := Int.floor_nonneg.mpr hy0
  have hfl100 : ⌊fl64 (fl64 (cur / mx) * 100)⌋ ≤ 100 := by
    calc ⌊fl64 (fl64 (cur / mx) * 100)⌋ ≤ ⌊(100 : ℚ)⌋ := Int.floor_le_floor hy1
    _ = 100 := by norm_num
  refine ⟨?_, hfl0, hfl100⟩
  have hcast : f64_to_u8 (fl64 (fl64 (cur / mx) * 100)) =
      ⌊fl64 (fl64 (cur / mx) * 100)⌋.toNat := by
    unfold f64_to_u8
    rw [if_neg (not_lt.mpr hy0)]
    exact min_eq_left (Int.toNat_le.mpr (hfl100.trans (by norm_num)))
  rw [notifyBody, hcast]

/-- C5 witness: at `current = 1`, `maximum = 2` the body is the message, a
space, the decimal rendering of the `f64`-computed percentage (here `50`,
since `1/2` and `50` are exactly representable), and `%`. -/
theorem notification_body_percentage_witness :
    notifyBody "Brightness adjusted:" (fl64 ((1 : ℚ) / 2)) =
      "Brightness adjusted:" ++ " " ++
        toString (⌊fl64 (fl64 ((1 : ℚ) / 2) * 100)⌋.toNat) ++ "%" ∧
    0 ≤ ⌊fl64 (fl64 ((1 : ℚ) / 2) * 100)⌋ ∧ ⌊fl64 (fl64 ((1 : ℚ) / 2) * 100)⌋ ≤ 100 :=
  notification_body_percentage "Brightness adjusted:" 1 2
    (by norm_num) (by norm_num) (by norm_num)

/-- C6: the Brightness Reader, given a brightness-file path whose content
is `s` and whose sibling `max_brightness` file (same directory, file name
replaced) has content `t`, parses the whitespace-trimmed contents as
`cur` and `mx` and produces exactly `cur / mx`. -/
theorem brightness_reader_contract (fs : Fs) (p : Path) (s t : String) (cur mx : ℚ)
    (h1 : fs p = some s) (h2 : parseNum (trimContent s.toList) = some cur)
    (h3 : fs (p.dropLast ++ ["max_brightness"]) = some t)
    (h4 : parseNum (trimContent t.toList) = some mx) :
    brightnessFraction fs p = some (cur / mx) := by
  unfold brightnessFraction read_val set_file_name
  rw [h1, h3]
  simp only [String.toList] at h2 h4
  simp [h2, h4]

/-- C6 witness: contents `" 128\n"` and `"255\n"` are trimmed, parsed to
128 and 255, and the reader produces `128 / 255`. -/
theorem brightness_reader_contract_witness :
    brightnessFraction fsSys sysPath = some ((128 : ℚ) / 255) :=
  brightness_reader_contract fsSys sysPath " 128\n" "255\n" 128 255
    (by decide) (by decide) (by decide) (by decide)

/-- C7 counterexample: the claim "the handler sends exactly one fraction
for every successfully delivered event with at least one path" is false
when the path's files are unreadable: on a filesystem where every read
fails, the handler panics inside `read_val` and sends nothing. -/
theorem handler_single_send_cex :
    handler fsEmpty (.ok ⟨[devPath]⟩) = .panickedRead ∧
    ∀ q : ℚ, handler fsEmpty (.ok ⟨[devPath]⟩) ≠ .sent q := by
  have h : handler fsEmpty (.ok ⟨[devPath]⟩) = .panickedRead := by decide
  refine ⟨h, ?_⟩
  intro q hq
  rw [h] at hq
  exact HandlerOutcome.noConfusion hq

/-- C7 (amended): for every successfully delivered event carrying one or
more paths, the handler processes exactly the last path — its outcome
equals the outcome on the event carrying only that path, discarding all
others — and, provided that path's brightness files are readable and
parse (the restriction forced by the counterexample), it sends exactly the
one fraction computed from them. -/
theorem handler_uses_last_path (fs : Fs) (ps : List Path) (p : Path) :
    handler fs (.ok ⟨ps ++ [p]⟩) = handler fs (.ok ⟨[p]⟩) ∧
    ∀ q : ℚ, brightnessFraction fs p = some q →
      handler fs (.ok ⟨ps ++ [p]⟩) = .sent q := by
  have hlast : (ps ++ [p]).getLast? = some p := List.getLast?_concat ps
  constructor
  · simp [handler, hlast]
  · intro q hq
    simp [handler, hlast, hq]

/-- C7 witness: an event reporting `["other"]` and then `devPath` is
handled exactly like one reporting `devPath` alone, and sends the single
fraction `1 / 2` read for `devPath`. -/
theorem handler_uses_last_path_witness :
    handler fsHalf (.ok ⟨[["other"]] ++ [devPath]⟩) = handler fsHalf (.ok ⟨[devPath]⟩) ∧
    handler fsHalf (.ok ⟨[["other"]] ++ [devPath]⟩) = .sent ((1 : ℚ) / 2) := by
  have h1 : read_val fsHalf devPath = some 1 := by decide
  have h2 : read_val fsHalf (set_file_name devPath "max_brightness") = some 2 := by decide
  have hb : brightnessFraction fsHalf devPath = some ((1 : ℚ) / 2) := by
    simp [brightnessFraction, h1, h2]
  exact ⟨(handler_uses_last_path fsHalf [["other"]] devPath).1,
         (handler_uses_last_path fsHalf [["other"]] devPath).2 _ hb⟩

/-- C8: if the backlight device directory cannot be read, startup is
fatal: `watch` ends in the panic outcome (the `unwrap` on `read_dir`
aborts the process with a non-zero exit status) and no watch has been
armed, whatever the per-path watch subsystem would have answered. -/
theorem unreadable_backlight_dir_fatal (tryWatch : Path → Except Unit Unit) :
    watch none tryWatch = .panicked ∧ armedWatches (watch none tryWatch) = [] :=
  ⟨rfl, rfl⟩

/-- C9: if the blocking receive of a cycle fails (all producers dropped),
the main loop terminates at once — it produces no notification for that
or any later cycle and `main` returns the error (non-zero exit) instead of
continuing or retrying. -/
theorem recv_failure_exits_loop (msg : String) (second : Option ℚ)
    (f : ℕ → Option ℚ) (rest : List CycleInput) :
    runLoop msg (⟨.error (), second, f⟩ :: rest) = ([], some ()) := rfl

/-- C10: the handler is partial in the shape of the event's path list: on a
successfully delivered event carrying zero paths the path extraction
(`event.paths.pop().unwrap()`) panics; if the event carries at least one
path, that branch is unreachable and the handler always reaches the
brightness read (which then either panics on the files or sends the
fraction). -/
theorem handler_requires_nonempty_paths (fs : Fs) :
    handler fs (.ok ⟨[]⟩) = .panickedNoPath ∧
    ∀ ev : Event, ev.paths ≠ [] →
      handler fs (.ok ev) = .panickedRead ∨
      ∃ q, handler fs (.ok ev) = .sent q := by
  refine ⟨rfl, ?_⟩
  intro ev hne
  obtain ⟨p, hp⟩ : ∃ p, ev.paths.getLast? = some p := by
    cases hev : ev.paths.getLast? with
    | none => exact absurd (List.getLast?_eq_none_iff.mp hev) hne
    | some p => exact ⟨p, rfl⟩
  cases hb : brightnessFraction fs p with
  | none => exact Or.inl (by simp [handler, hp, hb])
  | some q => exact Or.inr ⟨q, by simp [handler, hp, hb]⟩

/-- C10 witness: on an event with no paths the handler panics at the path
extraction; on an event carrying `devPath` (files unreadable here) it gets
past the extraction to the brightness read. -/
theorem handler_requires_nonempty_paths_witness :
    handler fsEmpty (.ok ⟨[]⟩) = .panickedNoPath ∧
    (handler fsEmpty (.ok ⟨[devPath]⟩) = .panickedRead ∨
      ∃ q, handler fsEmpty (.ok ⟨[devPath]⟩) = .sent q) :=
  ⟨(handler_requires_nonempty_paths fsEmpty).1,
   (handler_requires_nonempty_paths fsEmpty).2 ⟨[devPath]⟩ (by decide)⟩

end Blight
